import Mathlib

/-!
Verification of the SQLite key-value storage adapter
(`src/lib/storage-adapter.ts`, class `SQLiteStorageAdapter`).

The adapter keeps a single SQLite table
`kv_storage(key TEXT PRIMARY KEY, value TEXT, created_at INTEGER DEFAULT 0,
updated_at INTEGER DEFAULT 0)` and exposes the AsyncStorage-shaped
operations `getItem`, `setItem`, `removeItem`, `multiGet`, `multiSet`,
`multiRemove`, `getAllKeys`, `clear`, `getStorageSize`.

The embedding models the table as an association list from keys to
records, and each operation as a pure function from a store to a result
together with the post-state.  Whether the underlying SQLite statement
faults is an explicit parameter (`fault : Bool`, or for `multiSet` the
index of the failing insert inside the transaction); the JavaScript
`try`/`catch` structure of each method is reproduced in the match on the
fault parameter.  `withTransactionAsync` is modelled by running the
inserts on the table and discarding the partial result when one of them
faults (the driver rolls the transaction back and the exception is
rethrown by the adapter's `catch`).
-/

namespace KV

/-- A row of the `kv_storage` table: `value TEXT`,
`created_at INTEGER DEFAULT 0`, `updated_at INTEGER DEFAULT 0`. -/
structure Record where
  value : String
  createdAt : Int
  updatedAt : Int
deriving DecidableEq, Repr

/-- Adapter state: the `kv_storage` table (keys are the primary key, so
the association list carries at most one row per key in reachable
states) and the `ready` flag set by `init`. -/
structure Store where
  table : List (String × Record)
  ready : Bool
deriving DecidableEq, Repr

/-- Faults an operation can raise: the precondition error thrown by
`ensureReady`, and a SQLite read/write/connectivity fault. -/
inductive DbError where
  | notInitialized
  | sqlFault
deriving DecidableEq, Repr

/-- The fresh store before `init` has run. -/
def emptyStore : Store := { table := [], ready := false }

/-- The guard `ensureReady`: throws `Error('SQLite storage not initialized…')`
unless `init` has completed. -/
def ensureReady (s : Store) : Except DbError Unit :=
  if s.ready then .ok () else .error .notInitialized

/-- Method `init()`: opens the database and creates the table
(`CREATE TABLE IF NOT EXISTS`, so existing rows survive), then sets the
ready flag; on fault it rethrows and the flag stays clear. -/
def init (s : Store) (fault : Bool) : Except DbError Unit × Store :=
  if fault then (.error .sqlFault, s) else (.ok (), { s with ready := true })

/-- Row lookup by primary key
(`SELECT value FROM kv_storage WHERE key = ?`). -/
def lookup (t : List (String × Record)) (k : String) : Option Record :=
  match t with
  | [] => none
  | (k', r) :: rest => if k' = k then some r else lookup rest k

/-- The upsert statement shared by `setItem` and `multiSet`:
`INSERT INTO kv_storage (key, value, updated_at) VALUES (?, ?, ?)
ON CONFLICT(key) DO UPDATE SET value = excluded.value,
updated_at = excluded.updated_at`.  A fresh insert leaves `created_at`
at its schema default `0`; a conflicting insert keeps the stored
`created_at` and refreshes `value` and `updated_at`. -/
def upsert (t : List (String × Record)) (k v : String) (now : Int) :
    List (String × Record) :=
  match t with
  | [] => [(k, ⟨v, 0, now⟩)]
  | (k', r) :: rest =>
      if k' = k then (k, ⟨v, r.createdAt, now⟩) :: rest
      else (k', r) :: upsert rest k v now

/-- Method `getItem(key)`: after the readiness guard, selects the row; a fault
is caught, logged and turned into `null`; a present row yields its
`value` (the row object is truthy even when the value is empty). -/
def getItem (s : Store) (fault : Bool) (k : String) :
    Except DbError (Option String) × Store :=
  match ensureReady s with
  | .error e => (.error e, s)
  | .ok _ =>
      if fault then (.ok none, s)
      else (.ok ((lookup s.table k).map Record.value), s)

/-- Method `setItem(key, value)`: after the readiness guard, runs the upsert
with `now = Math.floor(Date.now() / 1000)`; a fault is logged and
rethrown, leaving the table unchanged. -/
def setItem (s : Store) (fault : Bool) (k v : String) (now : Int) :
    Except DbError Unit × Store :=
  match ensureReady s with
  | .error e => (.error e, s)
  | .ok _ =>
      if fault then (.error .sqlFault, s)
      else (.ok (), { s with table := upsert s.table k v now })

/-- Method `removeItem(key)`: `DELETE FROM kv_storage WHERE key = ?`; a fault
is logged and rethrown. -/
def removeItem (s : Store) (fault : Bool) (k : String) :
    Except DbError Unit × Store :=
  match ensureReady s with
  | .error e => (.error e, s)
  | .ok _ =>
      if fault then (.error .sqlFault, s)
      else (.ok (), { s with table := s.table.filter (fun p => p.1 ≠ k) })

/-- The JavaScript expression `resultMap.get(key) || null` used by
`multiGet`: `undefined` (missing key) and the falsy empty string both
collapse to `null`. -/
def jsValueOrNull (o : Option Record) : Option String :=
  match o with
  | none => none
  | some r => if r.value = "" then none else some r.value

/-- Method `multiGet(keys)`: after the readiness guard, selects the matching
rows and returns `keys.map(key => [key, resultMap.get(key) || null])`;
a fault is caught and degraded to `keys.map(key => [key, null])`. -/
def multiGet (s : Store) (fault : Bool) (keys : List String) :
    Except DbError (List (String × Option String)) × Store :=
  match ensureReady s with
  | .error e => (.error e, s)
  | .ok _ =>
      if fault then (.ok (keys.map fun k => (k, none)), s)
      else (.ok (keys.map fun k => (k, jsValueOrNull (lookup s.table k))), s)

/-- The body of `multiSet`'s `withTransactionAsync` callback: the upsert
runs once per pair, in order; `faultIdx` is the position of the insert
that throws, if any within range. -/
def runInserts (t : List (String × Record)) (pairs : List (String × String))
    (now : Int) (faultIdx : Option Nat) :
    Except DbError (List (String × Record)) :=
  match pairs, faultIdx with
  | [], _ => .ok t
  | _ :: _, some 0 => .error .sqlFault
  | (k, v) :: rest, some (n + 1) =>
      runInserts (upsert t k v now) rest now (some n)
  | (k, v) :: rest, none =>
      runInserts (upsert t k v now) rest now none

/-- Method `multiSet(keyValuePairs)`: after the readiness guard, runs all
upserts inside `withTransactionAsync` with one shared `now`; if an
insert throws, the driver rolls the transaction back and the adapter's
`catch` logs and rethrows, so the table is as before the call. -/
def multiSet (s : Store) (faultIdx : Option Nat)
    (pairs : List (String × String)) (now : Int) :
    Except DbError Unit × Store :=
  match ensureReady s with
  | .error e => (.error e, s)
  | .ok _ =>
      match runInserts s.table pairs now faultIdx with
      | .ok t => (.ok (), { s with table := t })
      | .error e => (.error e, s)

/-- Method `multiRemove(keys)`: `DELETE FROM kv_storage WHERE key IN (…)`; a
fault is logged and rethrown. -/
def multiRemove (s : Store) (fault : Bool) (keys : List String) :
    Except DbError Unit × Store :=
  match ensureReady s with
  | .error e => (.error e, s)
  | .ok _ =>
      if fault then (.error .sqlFault, s)
      else (.ok (), { s with table := s.table.filter (fun p => p.1 ∉ keys) })

/-- Insertion step for the `ORDER BY key` of `getAllKeys`. -/
def insertKey (k : String) : List String → List String
  | [] => [k]
  | k' :: rest => if k ≤ k' then k :: k' :: rest else k' :: insertKey k rest

/-- The `ORDER BY key` clause: lexicographic sort of the key column. -/
def sortKeys : List String → List String
  | [] => []
  | k :: rest => insertKey k (sortKeys rest)

/-- Method `getAllKeys()`: `SELECT key FROM kv_storage ORDER BY key`; a fault
is caught and degraded to the empty list. -/
def getAllKeys (s : Store) (fault : Bool) :
    Except DbError (List String) × Store :=
  match ensureReady s with
  | .error e => (.error e, s)
  | .ok _ =>
      if fault then (.ok [], s)
      else (.ok (sortKeys (s.table.map Prod.fst)), s)

/-- Method `clear()`: `DELETE FROM kv_storage`; a fault is logged and
rethrown. -/
def clear (s : Store) (fault : Bool) : Except DbError Unit × Store :=
  match ensureReady s with
  | .error e => (.error e, s)
  | .ok _ =>
      if fault then (.error .sqlFault, s)
      else (.ok (), { s with table := [] })

/-- Method `getStorageSize()`: `SELECT COUNT(*) as count FROM kv_storage`; the
count row always exists, so a successful query returns the row count; a
fault is caught and degraded to `0`. -/
def getStorageSize (s : Store) (fault : Bool) :
    Except DbError Nat × Store :=
  match ensureReady s with
  | .error e => (.error e, s)
  | .ok _ =>
      if fault then (.ok 0, s)
      else (.ok s.table.length, s)

/-- Number of distinct keys stored in the table. -/
def distinctKeyCount (t : List (String × Record)) : Nat :=
  (t.map Prod.fst).dedup.length

/-- States reachable from the fresh store through the adapter's
operations (read operations do not change the store). -/
inductive Reach : Store → Prop where
  | empty : Reach emptyStore
  | init (s : Store) (fault : Bool) (h : Reach s) : Reach (init s fault).2
  | setItem (s : Store) (fault : Bool) (k v : String) (now : Int)
      (h : Reach s) : Reach (setItem s fault k v now).2
  | removeItem (s : Store) (fault : Bool) (k : String) (h : Reach s) :
      Reach (removeItem s fault k).2
  | multiSet (s : Store) (faultIdx : Option Nat)
      (pairs : List (String × String)) (now : Int) (h : Reach s) :
      Reach (multiSet s faultIdx pairs now).2
  | multiRemove (s : Store) (fault : Bool) (keys : List String)
      (h : Reach s) : Reach (multiRemove s fault keys).2
  | clear (s : Store) (fault : Bool) (h : Reach s) : Reach (clear s fault).2

/-- The `created_at` column an upsert leaves behind: the stored one on
conflict, the schema default `0` on a fresh insert. -/
def createdOf (o : Option Record) : Int :=
  match o with
  | some r => r.createdAt
  | none => 0

/-- The primary-key uniqueness invariant of the table. -/
def keysNodup (t : List (String × Record)) : Prop :=
  (t.map Prod.fst).Nodup

theorem lookup_upsert_self (t : List (String × Record)) (k v : String)
    (now : Int) :
    lookup (upsert t k v now) k = some ⟨v, createdOf (lookup t k), now⟩ := by
  induction t with
  | nil => simp [upsert, lookup, createdOf]
  | cons p rest ih =>
      obtain ⟨k', r⟩ := p
      by_cases hk : k' = k
      · simp [upsert, lookup, hk, createdOf]
      · simp [upsert, lookup, hk, ih]

theorem lookup_upsert_other (t : List (String × Record)) (k v : String)
    (now : Int) (a : String) (ha : a ≠ k) :
    lookup (upsert t k v now) a = lookup t a := by
  induction t with
  | nil => simp [upsert, lookup, Ne.symm ha]
  | cons p rest ih =>
      obtain ⟨k', r⟩ := p
      by_cases hk : k' = k
      · subst hk
        simp [upsert, lookup, Ne.symm ha]
      · simp [upsert, lookup, hk, ih]

theorem length_upsert (t : List (String × Record)) (k v : String)
    (now : Int) :
    (upsert t k v now).length =
      if lookup t k = none then t.length + 1 else t.length := by
  induction t with
  | nil => simp [upsert, lookup]
  | cons p rest ih =>
      obtain ⟨k', r⟩ := p
      by_cases hk : k' = k
      · simp [upsert, lookup, hk]
      · simp only [upsert, lookup, hk, if_false, List.length_cons, ih]
        by_cases hm : lookup rest k = none <;> simp [hm]

theorem mem_keys_upsert (t : List (String × Record)) (k v : String)
    (now : Int) (a : String)
    (ha : a ∈ (upsert t k v now).map Prod.fst) :
    a ∈ t.map Prod.fst ∨ a = k := by
  induction t with
  | nil => simpa [upsert] using ha
  | cons p rest ih =>
      obtain ⟨k', r⟩ := p
      by_cases hk : k' = k
      · subst hk
        exact Or.inl (by simpa [upsert] using ha)
      · simp only [upsert, hk, if_false, List.map_cons, List.mem_cons] at ha
        rcases ha with ha | ha
        · exact Or.inl (by simp [ha])
        · rcases ih ha with h | h
          · exact Or.inl (by simp [h])
          · exact Or.inr h

theorem keysNodup_upsert (t : List (String × Record)) (k v : String)
    (now : Int) (h : keysNodup t) : keysNodup (upsert t k v now) := by
  induction t with
  | nil => simp [upsert, keysNodup]
  | cons p rest ih =>
      obtain ⟨k', r⟩ := p
      simp only [keysNodup, List.map_cons, List.nodup_cons] at h
      by_cases hk : k' = k
      · subst hk
        simpa [upsert, keysNodup] using h
      · have hrest := ih h.2
        simp only [upsert, hk, if_false, keysNodup, List.map_cons,
          List.nodup_cons]
        refine ⟨fun hmem => ?_, hrest⟩
        rcases mem_keys_upsert rest k v now k' hmem with hm | hm
        · exact h.1 hm
        · exact hk hm

theorem keysNodup_filter (t : List (String × Record))
    (p : String × Record → Bool) (h : keysNodup t) :
    keysNodup (t.filter p) := by
  exact List.Nodup.sublist (List.Sublist.map Prod.fst (List.filter_sublist t)) h

theorem runInserts_ok_keysNodup (pairs : List (String × String))
    (t : List (String × Record)) (now : Int) (fi : Option Nat)
    (t' : List (String × Record))
    (hrun : runInserts t pairs now fi = .ok t') (h : keysNodup t) :
    keysNodup t' := by
  induction pairs generalizing t fi with
  | nil =>
      simp only [runInserts, Except.ok.injEq] at hrun
      exact hrun ▸ h
  | cons p rest ih =>
      obtain ⟨k, v⟩ := p
      match fi with
      | some 0 => simp [runInserts] at hrun
      | some (n + 1) =>
          exact ih (upsert t k v now) (some n) hrun (keysNodup_upsert t k v now h)
      | none =>
          exact ih (upsert t k v now) none hrun (keysNodup_upsert t k v now h)

/-- Every reachable store satisfies the primary-key uniqueness
invariant. -/
theorem reach_keysNodup (s : Store) (h : Reach s) : keysNodup s.table := by
  induction h with
  | empty => simp [emptyStore, keysNodup]
  | init s fault _ ih =>
      cases fault <;> simpa [init] using ih
  | setItem s fault k v now _ ih =>
      match hr : ensureReady s with
      | .error e => simpa [setItem, hr] using ih
      | .ok _ =>
          cases fault
          · simpa [setItem, hr] using keysNodup_upsert s.table k v now ih
          · simpa [setItem, hr] using ih
  | removeItem s fault k _ ih =>
      match hr : ensureReady s with
      | .error e => simpa [removeItem, hr] using ih
      | .ok _ =>
          cases fault
          · simpa [removeItem, hr] using
              keysNodup_filter s.table (fun p => p.1 ≠ k) ih
          · simpa [removeItem, hr] using ih
  | multiSet s fi pairs now _ ih =>
      match hr : ensureReady s with
      | .error e => simpa [multiSet, hr] using ih
      | .ok _ =>
          match hrun : runInserts s.table pairs now fi with
          | .ok t' =>
              simpa [multiSet, hr, hrun] using
                runInserts_ok_keysNodup pairs s.table now fi t' hrun ih
          | .error e => simpa [multiSet, hr, hrun] using ih
  | multiRemove s fault keys _ ih =>
      match hr : ensureReady s with
      | .error e => simpa [multiRemove, hr] using ih
      | .ok _ =>
          cases fault
          · simpa [multiRemove, hr] using
              keysNodup_filter s.table (fun p => p.1 ∉ keys) ih
          · simpa [multiRemove, hr] using ih
  | clear s fault _ ih =>
      match hr : ensureReady s with
      | .error e => simpa [clear, hr] using ih
      | .ok _ =>
          cases fault
          · simp [clear, hr, keysNodup]
          · simpa [clear, hr] using ih

theorem length_eq_distinctKeyCount (t : List (String × Record))
    (h : keysNodup t) : t.length = distinctKeyCount t := by
  unfold distinctKeyCount
  rw [List.Nodup.dedup h, List.length_map]

/-- The store right after a successful `init` on a fresh database. -/
def readyEmpty : Store := { table := [], ready := true }

theorem runInserts_fault (pairs : List (String × String)) (i : Nat)
    (t : List (String × Record)) (now : Int) (hi : i < pairs.length) :
    runInserts t pairs now (some i) = .error .sqlFault := by
  induction pairs generalizing i t with
  | nil => simp at hi
  | cons p rest ih =>
      obtain ⟨k, v⟩ := p
      match i with
      | 0 => simp [runInserts]
      | n + 1 =>
          have hn : n < rest.length := by
            simpa [Nat.succ_lt_succ_iff] using hi
          simpa [runInserts] using ih n (upsert t k v now) hn

/-- C1: on an initialized adapter, `setItem(k, v)` succeeds and an
immediately following `getItem(k)` (no fault, no intervening write)
returns `v`. -/
theorem setItem_then_getItem (s : Store) (k v : String) (now : Int)
    (h : s.ready = true) :
    (setItem s false k v now).1 = .ok () ∧
    (getItem (setItem s false k v now).2 false k).1 = .ok (some v) := by
  simp [setItem, getItem, ensureReady, h, lookup_upsert_self]

theorem setItem_then_getItem_witness :
    (setItem readyEmpty false "k" "v" 7).1 = .ok () ∧
    (getItem (setItem readyEmpty false "k" "v" 7).2 false "k").1 =
      .ok (some "v") :=
  setItem_then_getItem readyEmpty "k" "v" 7 rfl

/-- C2: `multiSet` is all-or-nothing — when the insert at position `i`
of the batch faults, the call rethrows the fault and the post-state is
the pre-state, so no pair of the batch is visible afterwards. -/
theorem multiSet_allOrNothing (s : Store) (i : Nat)
    (pairs : List (String × String)) (now : Int)
    (hready : s.ready = true) (hi : i < pairs.length) :
    multiSet s (some i) pairs now = (.error .sqlFault, s) := by
  simp [multiSet, ensureReady, hready, runInserts_fault pairs i s.table now hi]

theorem multiSet_allOrNothing_witness :
    multiSet readyEmpty (some 1) [("a", "x"), ("b", "y")] 3 =
      (.error .sqlFault, readyEmpty) :=
  multiSet_allOrNothing readyEmpty 1 [("a", "x"), ("b", "y")] 3 rfl
    (by decide)

/-- C3: before `init` has completed, every operation other than `init`
raises the precondition fault (it propagates, not being caught by the
operation's own handler) and leaves the stored state unchanged. -/
theorem ops_before_init (s : Store) (h : s.ready = false) (fault : Bool)
    (fi : Option Nat) (k v : String) (keys : List String)
    (pairs : List (String × String)) (now : Int) :
    getItem s fault k = (.error .notInitialized, s) ∧
    setItem s fault k v now = (.error .notInitialized, s) ∧
    removeItem s fault k = (.error .notInitialized, s) ∧
    multiGet s fault keys = (.error .notInitialized, s) ∧
    multiSet s fi pairs now = (.error .notInitialized, s) ∧
    multiRemove s fault keys = (.error .notInitialized, s) ∧
    getAllKeys s fault = (.error .notInitialized, s) ∧
    clear s fault = (.error .notInitialized, s) ∧
    getStorageSize s fault = (.error .notInitialized, s) := by
  simp [getItem, setItem, removeItem, multiGet, multiSet, multiRemove,
    getAllKeys, clear, getStorageSize, ensureReady, h]

theorem ops_before_init_witness :
    getItem emptyStore false "k" = (.error .notInitialized, emptyStore) ∧
    setItem emptyStore false "k" "v" 1 =
      (.error .notInitialized, emptyStore) ∧
    removeItem emptyStore false "k" = (.error .notInitialized, emptyStore) ∧
    multiGet emptyStore false ["k"] = (.error .notInitialized, emptyStore) ∧
    multiSet emptyStore none [("k", "v")] 1 =
      (.error .notInitialized, emptyStore) ∧
    multiRemove emptyStore false ["k"] =
      (.error .notInitialized, emptyStore) ∧
    getAllKeys emptyStore false = (.error .notInitialized, emptyStore) ∧
    clear emptyStore false = (.error .notInitialized, emptyStore) ∧
    getStorageSize emptyStore false = (.error .notInitialized, emptyStore) :=
  ops_before_init emptyStore rfl false none "k" "v" ["k"] [("k", "v")] 1

/-- C4 (code bug): a value stored as the empty string is not
retrievable through `multiGet` — the JavaScript
`resultMap.get(key) || null` collapses the falsy empty string to
`null`, although the row exists and `getItem` returns the empty
string. -/
theorem multiGet_empty_string_bug :
    (setItem readyEmpty false "k" "" 5).1 = .ok () ∧
    (getItem (setItem readyEmpty false "k" "" 5).2 false "k").1 =
      .ok (some "") ∧
    (multiGet (setItem readyEmpty false "k" "" 5).2 false ["k"]).1 =
      .ok [("k", none)] ∧
    [("k", (none : Option String))] ≠ [("k", some "")] :=
  ⟨rfl, rfl, rfl, by decide⟩

/-- C5 (code bug): the upsert never supplies `created_at`, so a record
freshly created by `setItem` at unix time `100` carries
`created_at = 0` (the schema default of the shipped code), not its
creation time; the project documentation's schema declares
`created_at INTEGER DEFAULT (strftime('%s','now'))` instead. -/
theorem created_at_default_zero_bug :
    lookup ((setItem readyEmpty false "a" "v" 100).2).table "a" =
      some { value := "v", createdAt := 0, updatedAt := 100 } ∧
    (0 : Int) ≠ 100 :=
  ⟨rfl, by decide⟩

/-- C6: after the readiness guard passes, a fault makes `getItem`
return `null` and `multiGet` return an all-null pair list without
raising, while `setItem`, `removeItem`, `multiRemove` and `clear`
propagate the fault to the caller. -/
theorem fault_policies (s : Store) (h : s.ready = true) (k v : String)
    (keys : List String) (now : Int) :
    getItem s true k = (.ok none, s) ∧
    multiGet s true keys = (.ok (keys.map fun x => (x, none)), s) ∧
    setItem s true k v now = (.error .sqlFault, s) ∧
    removeItem s true k = (.error .sqlFault, s) ∧
    multiRemove s true keys = (.error .sqlFault, s) ∧
    clear s true = (.error .sqlFault, s) := by
  simp [getItem, multiGet, setItem, removeItem, multiRemove, clear,
    ensureReady, h]

theorem fault_policies_witness :
    getItem readyEmpty true "k" = (.ok none, readyEmpty) ∧
    multiGet readyEmpty true ["a", "b"] =
      (.ok [("a", none), ("b", none)], readyEmpty) ∧
    setItem readyEmpty true "k" "v" 1 = (.error .sqlFault, readyEmpty) ∧
    removeItem readyEmpty true "k" = (.error .sqlFault, readyEmpty) ∧
    multiRemove readyEmpty true ["a", "b"] =
      (.error .sqlFault, readyEmpty) ∧
    clear readyEmpty true = (.error .sqlFault, readyEmpty) :=
  fault_policies readyEmpty rfl "k" "v" ["a", "b"] 1

/-- C7: `multiGet` returns exactly one pair per input key, first
components equal to the input keys in input order, and a key with no
stored record yields a `(key, null)` pair in its position — whether or
not the select faulted. -/
theorem multiGet_ordered (s : Store) (fault : Bool) (keys : List String)
    (h : s.ready = true) :
    ∃ l, multiGet s fault keys = (.ok l, s) ∧
      l.length = keys.length ∧
      l.map Prod.fst = keys ∧
      ∀ p ∈ l, lookup s.table p.1 = none → p.2 = none := by
  cases fault
  · refine ⟨keys.map fun k => (k, jsValueOrNull (lookup s.table k)),
      by simp [multiGet, ensureReady, h], by simp, by simp [Function.comp_def], ?_⟩
    intro p hp hnone
    simp only [List.mem_map] at hp
    obtain ⟨a, ha, rfl⟩ := hp
    simp only at hnone
    simp [jsValueOrNull, hnone]
  · refine ⟨keys.map fun k => (k, none),
      by simp [multiGet, ensureReady, h], by simp, by simp [Function.comp_def], ?_⟩
    intro p hp _
    simp only [List.mem_map] at hp
    obtain ⟨a, ha, rfl⟩ := hp
    rfl

theorem multiGet_ordered_witness :
    ∃ l, multiGet readyEmpty false ["a", "b"] = (.ok l, readyEmpty) ∧
      l.length = (["a", "b"] : List String).length ∧
      l.map Prod.fst = ["a", "b"] ∧
      ∀ p ∈ l, lookup readyEmpty.table p.1 = none → p.2 = none :=
  multiGet_ordered readyEmpty false ["a", "b"] rfl

/-- C8: after `init` has completed, `getItem` on a key with no stored
record returns `null` as a successful result, never a fault (whether or
not the underlying select faulted). -/
theorem getItem_never_written (s : Store) (fault : Bool) (k : String)
    (hready : s.ready = true) (hmiss : lookup s.table k = none) :
    getItem s fault k = (.ok none, s) := by
  cases fault <;> simp [getItem, ensureReady, hready, hmiss]

theorem getItem_never_written_witness :
    getItem readyEmpty false "k" = (.ok none, readyEmpty) :=
  getItem_never_written readyEmpty false "k" rfl rfl

/-- C9: in every reachable ready state, `getStorageSize()` equals the
number of distinct keys stored; overwriting an existing key leaves the
count unchanged, and `setItem` on a fresh key increases it by one. -/
theorem getStorageSize_distinct (s : Store) (hreach : Reach s)
    (hready : s.ready = true) (k v : String) (now : Int) :
    getStorageSize s false = (.ok (distinctKeyCount s.table), s) ∧
    (lookup s.table k ≠ none →
      (getStorageSize (setItem s false k v now).2 false).1 =
        .ok (distinctKeyCount s.table)) ∧
    (lookup s.table k = none →
      (getStorageSize (setItem s false k v now).2 false).1 =
        .ok (distinctKeyCount s.table + 1)) := by
  have hnd := reach_keysNodup s hreach
  have hlen := length_eq_distinctKeyCount s.table hnd
  refine ⟨by simp [getStorageSize, ensureReady, hready, hlen], ?_, ?_⟩
  · intro hsome
    simp [getStorageSize, setItem, ensureReady, hready, length_upsert,
      hsome, hlen]
  · intro hnone
    simp [getStorageSize, setItem, ensureReady, hready, length_upsert,
      hnone, hlen]

theorem getStorageSize_distinct_witness :
    (getStorageSize (setItem readyEmpty false "a" "v" 3).2 false).1 =
      .ok (distinctKeyCount readyEmpty.table + 1) :=
  (getStorageSize_distinct readyEmpty
    (Reach.init emptyStore false Reach.empty) rfl "a" "v" 3).2.2 rfl

/-- C10: after the readiness guard passes, a fault makes `getAllKeys`
return the empty list and `getStorageSize` return `0`, both as
successful results rather than raised faults. -/
theorem diagnostics_swallow (s : Store) (h : s.ready = true) :
    getAllKeys s true = (.ok [], s) ∧
    getStorageSize s true = (.ok 0, s) := by
  simp [getAllKeys, getStorageSize, ensureReady, h]

theorem diagnostics_swallow_witness :
    getAllKeys readyEmpty true = (.ok [], readyEmpty) ∧
    getStorageSize readyEmpty true = (.ok 0, readyEmpty) :=
  diagnostics_swallow readyEmpty rfl

end KV
